import Mathlib

/-!
Shallow embedding of the core logic of the `opencitations/crowdsourcing`
repository, and proofs about it.

Embedded source files:
* `src/crowdsourcing/meta_runner.py` (`store_meta_input`, `dump_csv`)
* `src/crowdsourcing/archive_manager.py` (`ArchiveManager`)
* `src/crowdsourcing/process_issues.py` (`validate`, `get_user_id`,
  `get_open_issues`, `get_data_to_store`, `process_open_issues`)

Python strings are modelled as `List Char` (converted at the boundary from
Lean `String`s) so that every operation is structurally recursive and can be
evaluated by the kernel.  External collaborators (the `requests` library, the
`oc_validator` semantic validator, the identifier managers, the Zenodo API)
are modelled as explicit oracle inputs, exactly at the call sites where the
source invokes them.
-/

/-! ### Python string primitives -/

/-- The whitespace characters removed by Python `str.strip()` (ASCII range). -/
def isPySpace (c : Char) : Bool :=
  c = ' ' || c = '\t' || c = '\n' || c = '\r' || c = '\x0b' || c = '\x0c'

/-- Python `str.strip()` over a char list. -/
def pyStrip (s : List Char) : List Char :=
  ((s.dropWhile isPySpace).reverse.dropWhile isPySpace).reverse

/-- Worker for `pySplit`: scans `s` left to right, cutting at each occurrence
of the (non-empty) separator `sep`.  `fuel` bounds the recursion by the length
of the remaining input; it is initialised to `s.length`, which suffices
because every step consumes at least one character. -/
def pySplitGo (sep : List Char) : Nat → List Char → List Char → List (List Char)
  | _, [], acc => [acc.reverse]
  | 0, s, acc => [acc.reverse ++ s]
  | fuel + 1, c :: rest, acc =>
    if sep.isPrefixOf (c :: rest) then
      acc.reverse :: pySplitGo sep fuel ((c :: rest).drop sep.length) []
    else
      pySplitGo sep fuel rest (c :: acc)

/-- Python `s.split(sep)` for a non-empty separator `sep`. -/
def pySplit (sep s : List Char) : List (List Char) :=
  pySplitGo sep s.length s []

/-- Python `sep in s` (substring containment) for a non-empty separator:
`s.split(sep)` has more than one part exactly when `sep` occurs in `s`. -/
def pyContains (sep s : List Char) : Bool :=
  (pySplit sep s).length != 1

/-- The literal sentinel separating the metadata CSV from the citations CSV
inside an issue body (`"===###===@@@==="` in the source). -/
def sentinel : List Char := "===###===@@@===".data

/-! ### `csv.DictReader` model

`csv.DictReader(io.StringIO(s))` over plain (unquoted) CSV text: the first
line is the header; every following non-blank line is one record mapping the
header fields to the line's comma-separated values. -/

/-- One parsed CSV record: header fields zipped with the row's values. -/
abbrev Row := List (String × String)

/-- Model of `list(csv.DictReader(io.StringIO(s)))` for plain CSV text. -/
def dictReader (s : List Char) : List Row :=
  match pySplit ['\n'] s with
  | [] => []
  | header :: rest =>
    let keys := (pySplit [','] header).map List.asString
    (rest.filter (fun l => !l.isEmpty)).map
      (fun l => keys.zip ((pySplit [','] l).map List.asString))

/-! ### `store_meta_input` (src/crowdsourcing/meta_runner.py, lines 89-189) -/

/-- A GitHub issue as consumed by `store_meta_input`: the dictionary fields
`issue["body"]` and `issue["number"]`.  A `none` field models a missing
dictionary key (access raises `KeyError`, which the source catches). -/
structure MIssue where
  body : Option String
  number : Option String
deriving DecidableEq

/-- The per-issue outcome of lines 110-154 of `store_meta_input`. -/
inductive Classified where
  /-- Both sections parsed to a non-empty record list; the records are
  appended to the buffers. -/
  | ok (metadata citations : List Row)
  /-- A `continue` was executed: missing separator, empty section, no parsed
  records, or a caught `KeyError`/`csv.Error`. -/
  | skip
  /-- The two-element unpacking of the split failed (the body contains the
  sentinel more than once), raising an uncaught `ValueError`. -/
  | fatal
deriving DecidableEq

/-- Lines 110-154 of `store_meta_input`: extract the metadata and citations
records of one issue, or decide that the issue is skipped / aborts the run. -/
def classify_issue (i : MIssue) : Classified :=
  match i.body with
  | none => .skip
  | some b =>
    if !pyContains sentinel b.data then .skip
    else
      match (pySplit sentinel b.data).map pyStrip with
      | [m, c] =>
        if m.isEmpty then .skip
        else if c.isEmpty then .skip
        else
          let metadata := dictReader m
          let citations := dictReader c
          if metadata.isEmpty then .skip
          else if citations.isEmpty then .skip
          else .ok metadata citations
      | _ => .fatal

/-- Buffer state of one record kind inside `store_meta_input`: the in-memory
list still to be written, the next file counter, and the files written so far
(each file is its counter value paired with the records handed to
`dump_csv`). -/
structure ChunkSt where
  buf : List Row
  ctr : Nat
  files : List (Nat × List Row)
deriving DecidableEq

/-- The `while len(buf) >= 1000` loop of lines 157-163 (resp. 166-172):
repeatedly slice off exactly the first 1000 records, write them as one file
named by the current counter, and increment the counter.  Returns the files
written, the remaining buffer, and the next counter value. -/
def flush_loop (buf : List Row) (ctr : Nat) :
    List (Nat × List Row) × List Row × Nat :=
  if h : 1000 ≤ buf.length then
    let r := flush_loop (buf.drop 1000) (ctr + 1)
    ((ctr, buf.take 1000) :: r.1, r.2.1, r.2.2)
  else
    ([], buf, ctr)
termination_by buf.length
decreasing_by simp only [List.length_drop]; omega

/-- Extend one kind's buffer with freshly parsed records and run its flush
loop (lines 153-172 for one record kind). -/
def push_records (st : ChunkSt) (recs : List Row) : ChunkSt :=
  let r := flush_loop (st.buf ++ recs) st.ctr
  ⟨r.2.1, r.2.2, st.files ++ r.1⟩

/-- Joint state of the two record kinds while iterating over the issues,
plus whether an uncaught `ValueError` is propagating. -/
structure RunSt where
  meta : ChunkSt
  cits : ChunkSt
  raised : Bool
deriving DecidableEq

/-- One iteration of the `for issue in issues` loop of `store_meta_input`.
Once an uncaught exception is propagating no further issue is processed. -/
def store_step (st : RunSt) (i : MIssue) : RunSt :=
  if st.raised then st
  else
    match classify_issue i with
    | .fatal => { st with raised := true }
    | .skip => st
    | .ok m c =>
      { st with meta := push_records st.meta m, cits := push_records st.cits c }

/-- The final `if metadata_to_store: dump_csv(...)` of lines 181-189: a
non-empty leftover buffer is written as one last (short) file under the
current counter. -/
def final_flush (st : ChunkSt) : ChunkSt :=
  if st.buf.isEmpty then st else ⟨[], st.ctr, st.files ++ [(st.ctr, st.buf)]⟩

/-- The observable result of `store_meta_input`: the metadata files and the
citations files written (in order), and whether the call raised. -/
structure StoreResult where
  metaFiles : List (Nat × List Row)
  citFiles : List (Nat × List Row)
  raised : Bool
deriving DecidableEq

/-- `store_meta_input(issues)` (lines 89-189).  When an uncaught `ValueError`
aborts the loop, the files already written remain on disk but the final
flush is never executed. -/
def store_meta_input (issues : List MIssue) : StoreResult :=
  let st := issues.foldl store_step ⟨⟨[], 0, []⟩, ⟨[], 0, []⟩, false⟩
  if st.raised then ⟨st.meta.files, st.cits.files, true⟩
  else ⟨(final_flush st.meta).files, (final_flush st.cits).files, false⟩

/-! ### `ArchiveManager` (src/crowdsourcing/archive_manager.py)

The persisted state is the JSON index file (`github_reports`,
`zenodo_reports`, `last_archive`) plus the report files on disk.  Python
dictionaries are modelled as association lists in insertion order; the
Zenodo/network calls are modelled by an oracle describing their outcomes. -/

/-- Python `d[k] = v` on a dict as insertion-ordered association list:
update in place if the key is present, else append. -/
def dinsert (l : List (String × String)) (k v : String) :
    List (String × String) :=
  if l.any (fun p => p.1 == k) then
    l.map (fun p => if p.1 == k then (k, v) else p)
  else l ++ [(k, v)]

/-- Python `d.pop(k)` (the removal part): drop the entry with key `k`. -/
def dpop (l : List (String × String)) (k : String) : List (String × String) :=
  l.filter (fun p => !(p.1 == k))

/-- Python `k in d`. -/
def dmem (l : List (String × String)) (k : String) : Bool :=
  l.any (fun p => p.1 == k)

/-- Python `d[k]` as an optional lookup. -/
def dget (l : List (String × String)) (k : String) : Option String :=
  (l.find? (fun p => p.1 == k)).map Prod.snd

/-- The persisted index file (`_init_index` / `_load_index` / `_save_index`). -/
structure Index where
  github_reports : List (String × String)
  zenodo_reports : List (String × String)
  last_archive : Option String
deriving DecidableEq

/-- The reports directory: each existing report file with its creation time
(`os.path.getctime`). -/
abbrev ReportFS := List (String × Nat)

/-- Whether a report file exists on disk (`os.path.exists`). -/
def fsExists (fs : ReportFS) (name : String) : Bool :=
  fs.any (fun p => p.1 == name)

/-- `os.path.getctime` for an existing file (0 if absent; the sort key in
`archive_reports` uses 0 for non-existent files). -/
def fsCtime (fs : ReportFS) (name : String) : Nat :=
  ((fs.find? (fun p => p.1 == name)).map Prod.snd).getD 0

/-- `os.remove`. -/
def fsRemove (fs : ReportFS) (name : String) : ReportFS :=
  fs.filter (fun p => !(p.1 == name))

/-- Persisted state of the archive manager: index file plus reports dir. -/
structure AMState where
  index : Index
  files : ReportFS
deriving DecidableEq

/-- The two numbers read from `archive_config.yaml`. -/
structure AMConfig where
  max_reports_before_archive : Nat
  archive_batch_size : Nat
deriving DecidableEq

/-- Outcomes of the network calls made during one `archive_reports` attempt:
whether `create_deposition_resource` succeeds, whether the `requests.put`
upload of each report succeeds, whether the publish `requests.post` succeeds,
and on success the DOI returned and the `datetime.now().isoformat()`
timestamp recorded. -/
structure NetOracle where
  createOk : Bool
  uploadOk : String → Bool
  publishOk : Bool
  doi : String
  now : String

/-- Errors raised by the network steps of `archive_reports`. -/
inductive NetErr where
  | create
  | upload (report : String)
  | publish
deriving DecidableEq

/-- Stable insertion of `x` into a list sorted by `key` (equal keys keep
their original relative order, as Python's stable `sorted` does). -/
def sortIns (key : String → Nat) (x : String) : List String → List String
  | [] => [x]
  | y :: ys => if key x ≤ key y then x :: y :: ys else y :: sortIns key x ys

/-- Python's stable `sorted(names, key=key)`. -/
def sortedByKey (key : String → Nat) : List String → List String
  | [] => []
  | x :: xs => sortIns key x (sortedByKey key xs)

/-- Lines 119-126 of `archive_reports`: the oldest `archive_batch_size`
report names, ordered by file creation time with missing files sorting as
timestamp 0. -/
def reports_to_archive (cfg : AMConfig) (st : AMState) : List String :=
  (sortedByKey
      (fun x => if fsExists st.files x then fsCtime st.files x else 0)
      (st.index.github_reports.map Prod.fst)).take cfg.archive_batch_size

/-- The upload loop of lines 139-151: reports whose file is missing are
skipped with a warning; the first failing `requests.put` raises.  Returns
the first failing report name, if any. -/
def upload_reports (o : NetOracle) (fs : ReportFS) : List String → Option String
  | [] => none
  | r :: rest =>
    if fsExists fs r then
      if o.uploadOk r then upload_reports o fs rest else some r
    else upload_reports o fs rest

/-- The index-update loop of lines 162-171, run only after a successful
publish: every selected report whose file still exists is popped from
`github_reports`, recorded in `zenodo_reports` under the DOI URL, and its
file is deleted. -/
def move_to_zenodo (doi : String) : AMState → List String → AMState
  | st, [] => st
  | st, r :: rest =>
    if fsExists st.files r then
      move_to_zenodo doi
        ⟨⟨dpop st.index.github_reports r,
          dinsert st.index.zenodo_reports r ("https://doi.org/" ++ doi),
          st.index.last_archive⟩,
         fsRemove st.files r⟩ rest
    else move_to_zenodo doi st rest

/-- `ArchiveManager.archive_reports` (lines 109-180).  Returns the Python
return value (`None` or the DOI) or the raised error, together with the
persisted state afterwards.  The index is only saved (line 174) after the
publish has succeeded and the moves have been applied, so every raising
branch leaves the persisted state untouched. -/
def archive_reports (cfg : AMConfig) (o : NetOracle) (st : AMState) :
    Except NetErr (Option String) × AMState :=
  let toArchive := reports_to_archive cfg st
  if toArchive.isEmpty then (.ok none, st)
  else if !o.createOk then (.error .create, st)
  else
    match upload_reports o st.files toArchive with
    | some r => (.error (.upload r), st)
    | none =>
      if !o.publishOk then (.error .publish, st)
      else
        let st2 := move_to_zenodo o.doi st toArchive
        (.ok (some o.doi),
          ⟨⟨st2.index.github_reports, st2.index.zenodo_reports, some o.now⟩,
           st2.files⟩)

/-- `ArchiveManager.add_report` (lines 84-107): insert the report into
`github_reports`, save, and if the hot set now has at least
`max_reports_before_archive` entries call `archive_reports` (whose raised
error, if any, propagates; the insertion is already persisted). -/
def add_report (cfg : AMConfig) (o : NetOracle) (st : AMState)
    (report_filename github_url : String) :
    Except NetErr (Option String) × AMState :=
  let idx : Index :=
    { st.index with
      github_reports := dinsert st.index.github_reports report_filename github_url }
  let st1 : AMState := ⟨idx, st.files⟩
  if cfg.max_reports_before_archive ≤ idx.github_reports.length then
    archive_reports cfg o st1
  else (.ok none, st1)

/-- `ArchiveManager.get_report_url` (lines 182-201): GitHub entry first,
then Zenodo entry, else `None`.  Only reads the index. -/
def get_report_url (st : AMState) (report_filename : String) : Option String :=
  if dmem st.index.github_reports report_filename then
    dget st.index.github_reports report_filename
  else if dmem st.index.zenodo_reports report_filename then
    dget st.index.zenodo_reports report_filename
  else none

/-- One observable `ArchiveManager` operation, carrying the network oracle
for the archival it may perform. -/
inductive AMOp where
  | add (name url : String) (o : NetOracle)
  | archive (o : NetOracle)
  | locate (name : String)

/-- The persisted state after one operation (`get_report_url` never writes). -/
def am_step (cfg : AMConfig) (st : AMState) : AMOp → AMState
  | .add n u o => (add_report cfg o st n u).2
  | .archive o => (archive_reports cfg o st).2
  | .locate _ => st

/-- The persisted state after a sequence of operations. -/
def am_run (cfg : AMConfig) (st : AMState) (ops : List AMOp) : AMState :=
  ops.foldl (am_step cfg) st

/-- The artifact names currently in the hot (GitHub) set. -/
def hotKeys (st : AMState) : List String := st.index.github_reports.map Prod.fst

/-- The artifact names currently in the cold (Zenodo) set. -/
def coldKeys (st : AMState) : List String := st.index.zenodo_reports.map Prod.fst

/-- The hot and cold sets are disjoint. -/
def DisjointHC (st : AMState) : Prop :=
  ∀ k, k ∈ hotKeys st → k ∉ coldKeys st

instance (st : AMState) : Decidable (DisjointHC st) := by
  unfold DisjointHC; infer_instance

/-- Side condition on one operation: a report is only registered under a
name that is not already recorded in the cold set. -/
def am_opOk (st : AMState) : AMOp → Bool
  | .add n _ _ => !(dmem st.index.zenodo_reports n)
  | _ => true

/-- The side condition holds at every state along the trace. -/
def am_opsOk (cfg : AMConfig) (st : AMState) : List AMOp → Bool
  | [] => true
  | op :: rest => am_opOk st op && am_opsOk cfg (am_step cfg st op) rest

/-! ### Retrying request loops (src/crowdsourcing/process_issues.py)

One HTTP attempt is modelled by an oracle indexed by the attempt number
(`resps i` is the outcome of attempt `i`, `timeAt i` is `time.time()` when
that attempt handles a rate limit).  The functions additionally return the
list of `time.sleep` durations they performed, in order. -/

/-- `MAX_RETRIES` (both in `get_user_id` and `get_open_issues`). -/
def MAX_RETRIES : Nat := 3

/-- `RETRY_DELAY` in seconds. -/
def RETRY_DELAY : Nat := 5

/-- Outcome of one `requests.get` inside `get_user_id`: a status code with
the optional JSON `id` field and the optional rate-limit headers
`(X-RateLimit-Remaining, X-RateLimit-Reset)`, or a raised exception. -/
inductive UResp where
  | status (code : Nat) (id : Option Nat) (rl : Option (Nat × Nat))
  | readTimeout
  | connectionErr
deriving DecidableEq

/-- The `for attempt in range(MAX_RETRIES)` loop of `get_user_id`
(lines 349-393), with `fuel` attempts remaining and `i` the index of the
next attempt.  Returns the Python return value and the sleeps performed. -/
def get_user_id_go (resps : Nat → UResp) (timeAt : Nat → Nat) :
    Nat → Nat → Option Nat × List Int
  | 0, _ => (none, [])
  | fuel + 1, i =>
    match resps i with
    | .status 200 id _ => (id, [])
    | .status 404 _ _ => (none, [])
    | .status 403 _ (some (0, reset)) =>
      let sleep_time : Int := max ((reset : Int) - (timeAt i : Int)) 0
      let r := get_user_id_go resps timeAt fuel (i + 1)
      (r.1, sleep_time :: r.2)
    | .status _ _ _ => get_user_id_go resps timeAt fuel (i + 1)
    | .readTimeout => get_user_id_go resps timeAt fuel (i + 1)
    | .connectionErr =>
      let r := get_user_id_go resps timeAt fuel (i + 1)
      (r.1, (RETRY_DELAY : Int) :: r.2)

/-- `get_user_id` (lines 349-393): three attempts, then `return None`. -/
def get_user_id (resps : Nat → UResp) (timeAt : Nat → Nat) :
    Option Nat × List Int :=
  get_user_id_go resps timeAt MAX_RETRIES 0

/-- One raw issue as delivered by the GitHub API to `get_open_issues`. -/
structure GhIssue where
  title : String
  body : String
  number : Nat
  login : String
  created_at : String
  html_url : String
deriving DecidableEq

/-- The issue dictionary built by the comprehension at lines 603-613. -/
structure IssueView where
  title : String
  body : String
  number : String
  author_login : String
  createdAt : String
  url : String
deriving DecidableEq

/-- The mapping applied to each raw issue at lines 603-613
(`"number": str(issue["number"])`). -/
def mapIssue (g : GhIssue) : IssueView :=
  ⟨g.title, g.body, Nat.repr g.number, g.login, g.created_at, g.html_url⟩

/-- Outcome of one `requests.get` inside `get_open_issues`: a status code
with the JSON issue list and optional rate-limit headers, or a raised
`requests.RequestException` / `KeyError` carrying its message. -/
inductive GResp where
  | status (code : Nat) (issues : List GhIssue) (rl : Option (Nat × Nat))
  | exn (e : String)
deriving DecidableEq

/-- The error raised by `get_open_issues` when the last attempt raised: the
fixed `RuntimeError` message together with the underlying error
(`raise RuntimeError(...) from e`). -/
structure ExhaustedErr where
  message : String
  cause : String
deriving DecidableEq

/-- The retry loop of `get_open_issues` (lines 585-649), with `fuel`
attempts remaining and `i` the next attempt index.  Returns the Python
result (the issue list, or the raised `RuntimeError`) and the sleeps
performed. -/
def get_open_issues_go (resps : Nat → GResp) (timeAt : Nat → Nat) :
    Nat → Nat → Except ExhaustedErr (List IssueView) × List Int
  | 0, _ => (.ok [], [])
  | fuel + 1, i =>
    match resps i with
    | .status 200 issues _ => (.ok (issues.map mapIssue), [])
    | .status 404 _ _ => (.ok [], [])
    | .status 403 _ (some (0, reset)) =>
      if timeAt i < reset then
        let r := get_open_issues_go resps timeAt fuel (i + 1)
        (r.1, ((reset : Int) - (timeAt i : Int)) :: r.2)
      else get_open_issues_go resps timeAt fuel (i + 1)
    | .status _ _ _ => get_open_issues_go resps timeAt fuel (i + 1)
    | .exn e =>
      if i < MAX_RETRIES - 1 then
        let r := get_open_issues_go resps timeAt fuel (i + 1)
        (r.1, (RETRY_DELAY : Int) :: r.2)
      else (.error ⟨"Failed to fetch issues after 3 attempts", e⟩, [])

/-- `get_open_issues` (lines 569-649): three attempts, then `return []`. -/
def get_open_issues (resps : Nat → GResp) (timeAt : Nat → Nat) :
    Except ExhaustedErr (List IssueView) × List Int :=
  get_open_issues_go resps timeAt MAX_RETRIES 0

/-! ### `validate` (src/crowdsourcing/process_issues.py, lines 107-273)

`_validate_title` performs regex matching plus online identifier validation
through the external identifier managers; its result (verdict and message)
is an oracle input.  The `ClosureValidator` run over the two CSV sections
(including the summary-file checks at lines 186-195) is an oracle mapping
the two section texts to either the pair of error flags or a raised
exception. -/

/-- Result of the external semantic-validation phase (`ClosureValidator`
plus the two summary-file checks), or the exception it raised. -/
inductive SemOutcome where
  | ok (has_meta_errors has_cits_errors : Bool)
  | raise (e : String)

/-- The fixed message for a body with no sentinel (lines 150-153). -/
def separator_message : String :=
  "Please use the separator \"===###===@@@===\" to divide metadata from citations, as shown in the following guide: https://github.com/opencitations/crowdsourcing/blob/main/README.md"

/-- The fixed message for an empty body (lines 142-145); the source wraps
the sentinel in single quotes, written here with escaped quote characters. -/
def empty_body_message : String :=
  "The issue body cannot be empty. Please provide metadata and citations in CSV format separated by \x27===###===@@@===\x27, as shown in the guide: https://github.com/opencitations/crowdsourcing/blob/main/README.md"

/-- The fixed acknowledgement message of the success branch (lines 249-253). -/
def thank_you_message : String :=
  "Thank you for your contribution! OpenCitations just processed the data you provided. The citations will soon be available on the [OpenCitations Index](https://opencitations.net/index) and metadata on [OpenCitations Meta](https://opencitations.net/meta)"

/-- The fixed message returned by `_validate_title` when the basic title
regex does not match (lines 60-63). -/
def malformed_title_message : String :=
  "The title of the issue was not structured correctly. Please, follow this format: deposit \x7bdomain name of journal\x7d \x7bdoi or other supported identifier\x7d. For example \"deposit localhost:330 doi:10.1007/978-3-030-00668-6_8\". The following identifiers are currently supported: doi, isbn, pmid, pmcid, url, wikidata, wikipedia, and openalex"

/-- `validate` (lines 107-273).  `title_result` is the pair returned by
`_validate_title(issue_title)`; `sem` is the semantic-validation oracle;
`repository` is `os.environ["GITHUB_REPOSITORY"]`.  Returns the
`(is_valid, message)` pair together with the report registered with the
archive manager, if any (filename and public URL handed to `add_report`
at line 236). -/
def validate (title_result : Bool × String) (sem : String → String → SemOutcome)
    (repository : String) (issue_body : String) (issue_number : String) :
    (Bool × String) × Option (String × String) :=
  if !title_result.1 then ((false, title_result.2), none)
  else if issue_body = "" then ((false, empty_body_message), none)
  else if !pyContains sentinel issue_body.data then
    ((false, separator_message), none)
  else
    let split_data := pySplit sentinel issue_body.data
    let metadata_csv := (pyStrip (split_data.getD 0 [])).asString
    let citations_csv := (pyStrip (split_data.getD 1 [])).asString
    match sem metadata_csv citations_csv with
    | .raise e =>
      ((false, "Error validating data: " ++ e ++ ". Please ensure both metadata and citations are valid CSVs following the required format."), none)
    | .ok has_meta_errors has_cits_errors =>
      if has_meta_errors || has_cits_errors then
        let report_filename := "validation_issue_" ++ issue_number ++ ".html"
        let owner := ((pySplit ['/'] repository.data).getD 0 []).asString
        let repo_name := ((pySplit ['/'] repository.data).getD 1 []).asString
        let base_url := "https://" ++ owner ++ ".github.io/" ++ repo_name
        let error_parts :=
          (if has_meta_errors then ["metadata"] else []) ++
          (if has_cits_errors then ["citations"] else [])
        ((false,
          "Validation errors found in " ++ String.intercalate " and " error_parts ++
            ". Please check the detailed validation report: " ++ base_url ++
            "/validation_reports/index.html?report=" ++ report_filename),
         some (report_filename,
           base_url ++ "/validation_reports/" ++ report_filename))
      else ((true, thank_you_message), none)

/-! ### `get_data_to_store` (lines 396-444) and the collection step of
`process_open_issues` (lines 696-706) -/

/-- The dictionary built by `get_data_to_store`: the `data` fields and the
provenance fields. -/
structure StoredData where
  title : String
  metadata : List Row
  citations : List Row
  generatedAtTime : String
  wasAttributedTo : String
  hadPrimarySource : String
deriving DecidableEq

/-- The `ValueError` raised by `get_data_to_store` (every failure inside is
re-raised as `ValueError("Failed to process issue data: ...")`). -/
inductive DataErr where
  /-- The two-element unpacking of the sentinel split failed (the body
  contains the sentinel zero or more than one time). -/
  | unpackMismatch
  /-- One of the two parsed record lists is empty (line 429). -/
  | emptySection
deriving DecidableEq

/-- `get_data_to_store` (lines 396-444). -/
def get_data_to_store (issue_title issue_body created_at had_primary_source :
    String) (user_id : Nat) : Except DataErr StoredData :=
  match (pySplit sentinel issue_body.data).map pyStrip with
  | [m, c] =>
    let metadata := dictReader m
    let citations := dictReader c
    if metadata.isEmpty || citations.isEmpty then .error .emptySection
    else
      .ok ⟨issue_title, metadata, citations, created_at,
        "https://api.github.com/user/" ++ Nat.repr user_id,
        had_primary_source⟩
  | _ => .error .unpackMismatch

/-- Lines 696-706 of `process_open_issues`: when the verdict is valid, the
issue's data is collected for the Zenodo deposit; a raising
`get_data_to_store` is caught and the loop continues with nothing
appended. -/
def collect_issue_data (is_valid : Bool)
    (issue_title issue_body created_at url : String) (user_id : Nat)
    (data_to_store : List StoredData) : List StoredData :=
  if is_valid then
    match get_data_to_store issue_title issue_body created_at url user_id with
    | .ok d => data_to_store ++ [d]
    | .error _ => data_to_store
  else data_to_store

deriving instance DecidableEq for Except

/-! ### Concrete instances used by witnesses and counterexamples -/

/-- A network oracle for which every Zenodo step succeeds. -/
def amOracle : NetOracle := ⟨true, fun _ => true, true, "10.5281/zenodo.1", "2025-01-01T00:00:00"⟩

/-- A network oracle whose publish step raises. -/
def amOracleNoPub : NetOracle := ⟨true, fun _ => true, false, "10.5281/zenodo.1", "2025-01-01T00:00:00"⟩

/-- Threshold 3, batch size 2 (the C7 scenario configuration). -/
def amCfg7 : AMConfig := ⟨3, 2⟩

/-- Empty index with four report files of increasing creation time. -/
def amSt4 : AMState := ⟨⟨[], [], none⟩, [("r1", 10), ("r2", 20), ("r3", 30), ("r4", 40)]⟩

/-- Empty index with a single report file. -/
def amSt1 : AMState := ⟨⟨[], [], none⟩, [("a", 5)]⟩

/-- A well-formed issue contributing one metadata record and one citations
record. -/
def wIssue : MIssue := ⟨some "t,i\na,b\n===###===@@@===\nc,d\ne,f", some "1"⟩

/-- The metadata record contributed by `wIssue`. -/
def wRow : Row := [("t", "a"), ("i", "b")]

/-- An issue whose body has no sentinel (skipped by `store_meta_input`). -/
def badIssue : MIssue := ⟨some "no separator here", some "2"⟩

/-- Whether a classification is the `ok` outcome. -/
def Classified.isOkC : Classified → Bool
  | .ok _ _ => true
  | _ => false

/-- The metadata records of an `ok` classification (else `[]`). -/
def okMeta : Classified → List Row
  | .ok m _ => m
  | _ => []

/-- The citations records of an `ok` classification (else `[]`). -/
def okCits : Classified → List Row
  | .ok _ c => c
  | _ => []

/-- The per-issue metadata record sections, in issue order. -/
def metaSections (issues : List MIssue) : List (List Row) :=
  issues.map (fun i => okMeta (classify_issue i))

/-- The per-issue citations record sections, in issue order. -/
def citSections (issues : List MIssue) : List (List Row) :=
  issues.map (fun i => okCits (classify_issue i))

/-! ## Claim theorems -/

/-- C1: for every archive-index state and every migration attempt in which a
network step of `ArchiveManager.archive_reports` raises, the error is
re-raised and the persisted state (hot mapping, cold mapping, report files,
`last_archive` timestamp) is exactly as before the call. -/
theorem archive_reports_error_preserves_state (cfg : AMConfig) (o : NetOracle)
    (st : AMState) (e : NetErr) (st2 : AMState)
    (h : archive_reports cfg o st = (.error e, st2)) : st2 = st := by
  unfold archive_reports at h
  by_cases h1 : (reports_to_archive cfg st).isEmpty <;> simp only [h1] at h
  · simp at h
  · by_cases h2 : o.createOk <;> simp only [h2] at h
    · cases hu : upload_reports o st.files (reports_to_archive cfg st) <;>
        simp only [hu] at h
      · by_cases h3 : o.publishOk <;> simp only [h3] at h
        · simp at h
        · simp at h; exact h.2.symm
      · simp at h; exact h.2.symm
    · simp at h; exact h.2.symm

/-- Witness for C1: a state with one hot report whose publish step fails;
`archive_reports` raises and the persisted state is unchanged. -/
theorem archive_reports_error_preserves_state_witness :
    (archive_reports amCfg7 amOracleNoPub
        ⟨⟨[("a", "urlA")], [], none⟩, [("a", 5)]⟩).2 =
      ⟨⟨[("a", "urlA")], [], none⟩, [("a", 5)]⟩ :=
  archive_reports_error_preserves_state amCfg7 amOracleNoPub
    ⟨⟨[("a", "urlA")], [], none⟩, [("a", 5)]⟩ .publish _ (by decide)

/-- C8: `get_report_url` performs no write, so two calls with no intervening
migration agree, and the result is the hot (GitHub) URL when the name is in
the hot set, else the cold (Zenodo) reference when in the cold set, else
`none`. -/
theorem get_report_url_idempotent (cfg : AMConfig) (st : AMState)
    (name : String) :
    am_step cfg st (.locate name) = st ∧
    get_report_url (am_step cfg st (.locate name)) name =
      get_report_url st name ∧
    get_report_url st name =
      (if dmem st.index.github_reports name then
        dget st.index.github_reports name
      else if dmem st.index.zenodo_reports name then
        dget st.index.zenodo_reports name
      else none) :=
  ⟨rfl, rfl, rfl⟩

/-- C4 counterexample: three rate-limited 403 responses exhaust the whole
retry budget of `get_user_id`.  Under the claim a rate-limit retry consumes
no attempt, so with attempt 3 answering 200 with id 7 the lookup would have
to return 7; the code stops after 3 attempts and returns `None` (after
sleeping `max(reset - now, 0) = 40` three times). -/
theorem rate_limit_retry_uses_budget_counterexample :
    get_user_id
        (fun i => if i < 3 then .status 403 none (some (0, 100))
          else .status 200 (some 7) none)
        (fun _ => 60) =
      (none, [40, 40, 40]) := by decide

/-- C4 amended: on a 403 response whose rate-limit header shows zero
remaining quota, `get_user_id` sleeps `max(resetTimestamp - now, 0)` and
retries, but the retry consumes one of the `MAX_RETRIES = 3` attempts
(the loop index advances and one unit of remaining budget is spent). -/
theorem rate_limit_sleeps_and_consumes_attempt (resps : Nat → UResp)
    (timeAt : Nat → Nat) (fuel i : Nat) (v : Option Nat) (reset : Nat)
    (h : resps i = .status 403 v (some (0, reset))) :
    get_user_id_go resps timeAt (fuel + 1) i =
      ((get_user_id_go resps timeAt fuel (i + 1)).1,
        max ((reset : Int) - (timeAt i : Int)) 0 ::
          (get_user_id_go resps timeAt fuel (i + 1)).2) := by
  conv_lhs => rw [get_user_id_go]
  rw [h]

/-- Witness for C4 (amended): a concrete rate-limited attempt sleeps
`max(100 - 60, 0) = 40` and passes to the next attempt with one budget unit
fewer. -/
theorem rate_limit_sleeps_and_consumes_attempt_witness :
    get_user_id_go (fun _ => .status 403 none (some (0, 100))) (fun _ => 60)
        3 0 =
      ((get_user_id_go (fun _ => .status 403 none (some (0, 100)))
          (fun _ => 60) 2 1).1,
        max ((100 : Int) - (60 : Int)) 0 ::
          (get_user_id_go (fun _ => .status 403 none (some (0, 100)))
            (fun _ => 60) 2 1).2) :=
  rate_limit_sleeps_and_consumes_attempt
    (fun _ => .status 403 none (some (0, 100))) (fun _ => 60) 2 0 none 100 rfl

/-- C5 counterexample: three attempts of `get_open_issues` answering status
500 — no success and no definitive 404 — end with the normal empty result
`[]` and no raised error, where the claim requires an ExhaustedRetries-style
failure. -/
theorem exhausted_retries_returns_empty_counterexample :
    get_open_issues (fun _ => .status 500 [] none) (fun _ => 0) =
      (.ok [], []) := by decide

/-- C5 amended: only `get_open_issues`, and only when the final attempt
raised a transport/key error, fails with a `RuntimeError` carrying the last
error; when every attempt raises, the first two failures sleep
`RETRY_DELAY = 5` and the third raises.  `get_user_id` never raises: with
every attempt a connection error it sleeps 5 three times and returns the
normal null result. -/
theorem exhausted_attempts_raise_or_return_empty (resps : Nat → GResp)
    (timeAt : Nat → Nat) (uresps : Nat → UResp) (utimeAt : Nat → Nat)
    (e0 e1 e2 : String)
    (h0 : resps 0 = .exn e0) (h1 : resps 1 = .exn e1)
    (h2 : resps 2 = .exn e2) (hu : ∀ i, uresps i = .connectionErr) :
    get_open_issues resps timeAt =
      (.error ⟨"Failed to fetch issues after 3 attempts", e2⟩, [5, 5]) ∧
    get_user_id uresps utimeAt = (none, [5, 5, 5]) := by
  constructor
  · show get_open_issues_go resps timeAt 3 0 = _
    simp [get_open_issues_go, h0, h1, h2, MAX_RETRIES, RETRY_DELAY]
  · show get_user_id_go uresps utimeAt 3 0 = _
    simp [get_user_id_go, hu, RETRY_DELAY]

/-- Witness for C5 (amended): concrete always-raising attempt traces. -/
theorem exhausted_attempts_raise_or_return_empty_witness :
    get_open_issues (fun _ => .exn "boom") (fun _ => 0) =
      (.error ⟨"Failed to fetch issues after 3 attempts", "boom"⟩, [5, 5]) ∧
    get_user_id (fun _ => .connectionErr) (fun _ => 0) = (none, [5, 5, 5]) :=
  exhausted_attempts_raise_or_return_empty (fun _ => .exn "boom") (fun _ => 0)
    (fun _ => .connectionErr) (fun _ => 0) "boom" "boom" "boom" rfl rfl rfl
    (fun _ => rfl)

set_option maxRecDepth 40000 in
/-- C6 counterexample: `validate` checks the title before the body, so for a
title rejected by `_validate_title` (e.g. a title not matching the basic
regex, which yields the fixed malformed-title message) and a non-empty body
without the sentinel, the verdict carries the title message — not the fixed
separator message the claim requires regardless of title validity. -/
theorem separator_message_depends_on_title_counterexample :
    (validate (false, malformed_title_message)
        (fun _ _ => .ok false false) "o/r" "x" "5").1 =
      (false, malformed_title_message) ∧
    malformed_title_message ≠ separator_message ∧
    "x" ≠ "" ∧
    pyContains sentinel "x".data = false := by decide

/-- C6 amended: for every title accepted by `_validate_title` and every
non-empty body that does not contain the sentinel, `validate` returns
invalid with the fixed separator message; when the title is rejected, the
title message is returned instead (shown by the counterexample). -/
theorem missing_separator_gives_separator_message (title_result : Bool × String)
    (sem : String → String → SemOutcome)
    (repository issue_body issue_number : String)
    (ht : title_result.1 = true) (hb : issue_body ≠ "")
    (hs : pyContains sentinel issue_body.data = false) :
    (validate title_result sem repository issue_body issue_number).1 =
      (false, separator_message) := by
  unfold validate
  simp [ht, hb, hs]

/-- Witness for C6 (amended): an accepted title with body `"x"`. -/
theorem missing_separator_gives_separator_message_witness :
    (validate (true, "") (fun _ _ => .ok false false) "o/r" "x" "5").1 =
      (false, separator_message) :=
  missing_separator_gives_separator_message (true, "")
    (fun _ _ => .ok false false) "o/r" "x" "5" rfl (by decide) (by decide)

set_option maxRecDepth 40000 in
/-- C10: a body containing the sentinel twice passes the separator check of
`validate`, which uses only the first two sections (with every semantic
outcome clear the verdict is valid with the fixed acknowledgement), while
`get_data_to_store` on the same body raises a `ValueError` because the
two-element unpacking of the three-part split fails; consequently the
collection step of `process_open_issues` appends nothing for the issue, so
a validly-answered issue is never collected for deposit. -/
theorem multi_sentinel_valid_but_never_stored :
    (validate (true, "") (fun _ _ => .ok false false) "o/r"
        "t,i\na,b\n===###===@@@===\nc,d\ne,f\n===###===@@@===\nx" "5").1 =
      (true, thank_you_message) ∧
    get_data_to_store "T" "t,i\na,b\n===###===@@@===\nc,d\ne,f\n===###===@@@===\nx"
        "2025-01-01" "https://github.com/o/r/issues/5" 3 =
      .error .unpackMismatch ∧
    collect_issue_data true "T"
        "t,i\na,b\n===###===@@@===\nc,d\ne,f\n===###===@@@===\nx"
        "2025-01-01" "https://github.com/o/r/issues/5" 3 [] = [] := by decide

set_option maxRecDepth 40000 in
/-- C7 counterexample: with threshold 3 and batch size 2, the migration is
triggered by the 3rd registration (when the hot size reaches the threshold),
not the 4th: after three `add_report` calls the two oldest entries are
already cold and only one entry is hot; the 4th registration changes the
cold set not at all. -/
theorem migration_on_third_add_counterexample :
    coldKeys (am_run amCfg7 amSt4
        [.add "r1" "u1" amOracle, .add "r2" "u2" amOracle,
          .add "r3" "u3" amOracle]) = ["r1", "r2"] ∧
    hotKeys (am_run amCfg7 amSt4
        [.add "r1" "u1" amOracle, .add "r2" "u2" amOracle,
          .add "r3" "u3" amOracle]) = ["r3"] ∧
    (am_run amCfg7 amSt4
        [.add "r1" "u1" amOracle, .add "r2" "u2" amOracle,
          .add "r3" "u3" amOracle, .add "r4" "u4" amOracle]).index.zenodo_reports =
      (am_run amCfg7 amSt4
        [.add "r1" "u1" amOracle, .add "r2" "u2" amOracle,
          .add "r3" "u3" amOracle]).index.zenodo_reports := by decide

set_option maxRecDepth 40000 in
/-- C7 amended: with threshold T = 3 and batch size 2, registering fewer
than 3 entries triggers no migration; the 3rd registration (hot size
reaching T) triggers exactly one migration that moves the 2 oldest hot
entries (by artifact creation time) to cold and records the migration
timestamp, leaving 1 entry hot; the 4th registration then triggers no
further migration, leaving 2 entries hot and the 2 oldest cold. -/
theorem migration_threshold_scenario :
    coldKeys (am_run amCfg7 amSt4 [.add "r1" "u1" amOracle]) = [] ∧
    coldKeys (am_run amCfg7 amSt4
        [.add "r1" "u1" amOracle, .add "r2" "u2" amOracle]) = [] ∧
    (am_run amCfg7 amSt4
        [.add "r1" "u1" amOracle, .add "r2" "u2" amOracle]).index.last_archive =
      none ∧
    coldKeys (am_run amCfg7 amSt4
        [.add "r1" "u1" amOracle, .add "r2" "u2" amOracle,
          .add "r3" "u3" amOracle]) = ["r1", "r2"] ∧
    hotKeys (am_run amCfg7 amSt4
        [.add "r1" "u1" amOracle, .add "r2" "u2" amOracle,
          .add "r3" "u3" amOracle]) = ["r3"] ∧
    (am_run amCfg7 amSt4
        [.add "r1" "u1" amOracle, .add "r2" "u2" amOracle,
          .add "r3" "u3" amOracle]).index.last_archive =
      some "2025-01-01T00:00:00" ∧
    hotKeys (am_run amCfg7 amSt4
        [.add "r1" "u1" amOracle, .add "r2" "u2" amOracle,
          .add "r3" "u3" amOracle, .add "r4" "u4" amOracle]) = ["r3", "r4"] ∧
    coldKeys (am_run amCfg7 amSt4
        [.add "r1" "u1" amOracle, .add "r2" "u2" amOracle,
          .add "r3" "u3" amOracle, .add "r4" "u4" amOracle]) = ["r1", "r2"] := by
  decide

/-! ### Key-set lemmas for the archive index -/

/-- `dmem` is membership in the key list. -/
theorem dmem_iff (l : List (String × String)) (a : String) :
    dmem l a = true ↔ a ∈ l.map Prod.fst := by
  simp only [dmem, List.any_eq_true, List.mem_map, beq_iff_eq]

/-- Keys after a Python-dict insertion. -/
theorem mem_keys_dinsert (l : List (String × String)) (k v a : String) :
    a ∈ (dinsert l k v).map Prod.fst ↔ a ∈ l.map Prod.fst ∨ a = k := by
  unfold dinsert
  by_cases hk : l.any (fun p => p.1 == k)
  · simp only [hk, if_true]
    rw [List.map_map]
    have hmap :
        l.map (Prod.fst ∘ fun p => if p.1 == k then (k, v) else p) =
          l.map Prod.fst := by
      apply List.map_congr_left
      intro p _
      by_cases hp : p.1 = k <;> simp [hp]
    rw [hmap]
    rcases List.any_eq_true.mp hk with ⟨p, hp, hpe⟩
    have hkmem : k ∈ l.map Prod.fst :=
      List.mem_map.mpr ⟨p, hp, by simpa using hpe⟩
    constructor
    · exact Or.inl
    · rintro (h | rfl)
      · exact h
      · exact hkmem
  · simp [hk]

/-- Keys after a Python-dict `pop`. -/
theorem mem_keys_dpop (l : List (String × String)) (k a : String) :
    a ∈ (dpop l k).map Prod.fst ↔ a ∈ l.map Prod.fst ∧ a ≠ k := by
  simp only [dpop, List.mem_map, List.mem_filter]
  constructor
  · rintro ⟨p, ⟨hp, hne⟩, rfl⟩
    exact ⟨⟨p, hp, rfl⟩, by simpa using hne⟩
  · rintro ⟨⟨p, hp, rfl⟩, hne⟩
    exact ⟨p, ⟨hp, by simpa using hne⟩, rfl⟩

/-- The index-update loop of a successful migration only moves keys from the
hot set to the cold set: the cold set grows, the hot set shrinks, and hot and
cold stay disjoint. -/
theorem move_to_zenodo_facts (doi : String) (rs : List String) (st : AMState) :
    (∀ k, k ∈ coldKeys st → k ∈ coldKeys (move_to_zenodo doi st rs)) ∧
    (∀ k, k ∈ hotKeys (move_to_zenodo doi st rs) → k ∈ hotKeys st) ∧
    (DisjointHC st → DisjointHC (move_to_zenodo doi st rs)) := by
  induction rs generalizing st with
  | nil => exact ⟨fun k h => h, fun k h => h, fun h => h⟩
  | cons r rest ih =>
    show
      (∀ k, k ∈ coldKeys st →
        k ∈ coldKeys (move_to_zenodo doi st (r :: rest))) ∧ _
    by_cases hex : fsExists st.files r
    · have hstep :
          move_to_zenodo doi st (r :: rest) =
            move_to_zenodo doi
              ⟨⟨dpop st.index.github_reports r,
                dinsert st.index.zenodo_reports r ("https://doi.org/" ++ doi),
                st.index.last_archive⟩,
               fsRemove st.files r⟩ rest := by
        rw [move_to_zenodo]
        simp [hex]
      rw [hstep]
      obtain ⟨ihc, ihh, ihd⟩ :=
        ih ⟨⟨dpop st.index.github_reports r,
          dinsert st.index.zenodo_reports r ("https://doi.org/" ++ doi),
          st.index.last_archive⟩, fsRemove st.files r⟩
      refine ⟨?_, ?_, ?_⟩
      · intro k hk
        apply ihc
        show k ∈ (dinsert st.index.zenodo_reports r _).map Prod.fst
        exact (mem_keys_dinsert _ _ _ _).mpr (Or.inl hk)
      · intro k hk
        have hk2 := ihh k hk
        have : k ∈ (dpop st.index.github_reports r).map Prod.fst := hk2
        exact ((mem_keys_dpop _ _ _).mp this).1
      · intro hd
        apply ihd
        intro k hk hkc
        have hk1 := (mem_keys_dpop _ _ _).mp hk
        rcases (mem_keys_dinsert _ _ _ _).mp hkc with hc | rfl
        · exact hd k hk1.1 hc
        · exact hk1.2 rfl
    · have hstep : move_to_zenodo doi st (r :: rest) = move_to_zenodo doi st rest := by
        rw [move_to_zenodo]
        simp [hex]
      rw [hstep]
      exact ih st

/-- `archive_reports` never adds a hot entry, never removes a cold entry, and
preserves disjointness of hot and cold (for both raising and succeeding
attempts). -/
theorem archive_reports_facts (cfg : AMConfig) (o : NetOracle) (st : AMState) :
    (∀ k, k ∈ coldKeys st → k ∈ coldKeys (archive_reports cfg o st).2) ∧
    (∀ k, k ∈ hotKeys (archive_reports cfg o st).2 → k ∈ hotKeys st) ∧
    (DisjointHC st → DisjointHC (archive_reports cfg o st).2) := by
  unfold archive_reports
  by_cases h1 : (reports_to_archive cfg st).isEmpty <;> simp only [h1]
  · exact ⟨fun k h => h, fun k h => h, fun h => h⟩
  · by_cases h2 : o.createOk <;> simp only [h2]
    · cases hu : upload_reports o st.files (reports_to_archive cfg st) <;>
        simp only [hu]
      · by_cases h3 : o.publishOk <;> simp only [h3]
        · simp only [Bool.not_true, Bool.false_eq_true, if_false]
          obtain ⟨hc, hh, hd⟩ :=
            move_to_zenodo_facts o.doi (reports_to_archive cfg st) st
          exact ⟨hc, hh, hd⟩
        · simp only [Bool.not_false, if_true]
          exact ⟨fun k h => h, fun k h => h, fun h => h⟩
      · exact ⟨fun k h => h, fun k h => h, fun h => h⟩
    · simp only [Bool.not_false, if_true]
      exact ⟨fun k h => h, fun k h => h, fun h => h⟩

/-- `add_report` under a name not recorded in the cold set: disjointness is
preserved, the cold set only grows, and a previously cold key never ends up
hot. -/
theorem add_report_facts (cfg : AMConfig) (o : NetOracle) (st : AMState)
    (n u : String) (hfresh : dmem st.index.zenodo_reports n = false)
    (hd : DisjointHC st) :
    DisjointHC (add_report cfg o st n u).2 ∧
    (∀ k, k ∈ coldKeys st → k ∈ coldKeys (add_report cfg o st n u).2 ∧
      k ∉ hotKeys (add_report cfg o st n u).2) := by
  have hfresh2 : n ∉ coldKeys st := by
    intro hmem
    rw [(dmem_iff st.index.zenodo_reports n).mpr hmem] at hfresh
    exact Bool.true_eq_false.mp hfresh
  set st1 : AMState :=
    ⟨{ st.index with
        github_reports := dinsert st.index.github_reports n u }, st.files⟩ with hst1
  have hd1 : DisjointHC st1 := by
    intro k hk hkc
    rcases (mem_keys_dinsert _ _ _ _).mp hk with hg | rfl
    · exact hd k hg hkc
    · exact hfresh2 hkc
  have hcold1 : ∀ k, k ∈ coldKeys st → k ∈ coldKeys st1 := fun k h => h
  have hnothot1 : ∀ k, k ∈ coldKeys st → k ∉ hotKeys st1 := by
    intro k hk hhot
    rcases (mem_keys_dinsert _ _ _ _).mp hhot with hg | rfl
    · exact hd k hg hk
    · exact hfresh2 hk
  have harch := archive_reports_facts cfg o st1
  have hres : (add_report cfg o st n u).2 = (archive_reports cfg o st1).2 ∨
      (add_report cfg o st n u).2 = st1 := by
    unfold add_report
    by_cases hthr :
        cfg.max_reports_before_archive ≤
          (dinsert st.index.github_reports n u).length <;> simp [hthr, hst1]
  rcases hres with hres | hres <;> rw [hres]
  · exact ⟨harch.2.2 hd1,
      fun k hk =>
        ⟨harch.1 k (hcold1 k hk),
          fun hhot => hnothot1 k hk (harch.2.1 k hhot)⟩⟩
  · exact ⟨hd1, fun k hk => ⟨hcold1 k hk, hnothot1 k hk⟩⟩

/-- One `ArchiveManager` operation whose side condition holds preserves
disjointness, grows the cold set, and keeps previously cold keys out of the
hot set. -/
theorem am_step_facts (cfg : AMConfig) (st : AMState) (op : AMOp)
    (hok : am_opOk st op = true) (hd : DisjointHC st) :
    DisjointHC (am_step cfg st op) ∧
    (∀ k, k ∈ coldKeys st → k ∈ coldKeys (am_step cfg st op) ∧
      k ∉ hotKeys (am_step cfg st op)) := by
  cases op with
  | add n u o =>
    have hfresh : dmem st.index.zenodo_reports n = false := by
      simpa [am_opOk] using hok
    exact add_report_facts cfg o st n u hfresh hd
  | archive o =>
    have h := archive_reports_facts cfg o st
    refine ⟨h.2.2 hd, fun k hk => ⟨h.1 k hk, fun hhot => ?_⟩⟩
    exact hd k (h.2.1 k hhot) hk
  | locate name =>
    exact ⟨hd, fun k hk => ⟨hk, fun hhot => hd k hhot hk⟩⟩

/-- Trace-level invariant: along any operation sequence whose side
conditions hold, disjointness is preserved, the cold set grows, and cold
keys stay out of the hot set. -/
theorem am_run_facts (cfg : AMConfig) (ops : List AMOp) : ∀ (st : AMState),
    DisjointHC st → am_opsOk cfg st ops = true →
    DisjointHC (am_run cfg st ops) ∧
    (∀ k, k ∈ coldKeys st → k ∈ coldKeys (am_run cfg st ops) ∧
      k ∉ hotKeys (am_run cfg st ops)) := by
  induction ops with
  | nil =>
    intro st hd _
    exact ⟨hd, fun k hk => ⟨hk, fun hhot => hd k hhot hk⟩⟩
  | cons op rest ih =>
    intro st hd hops
    unfold am_opsOk at hops
    rw [Bool.and_eq_true] at hops
    have hop : am_opOk st op = true := hops.1
    have hrest : am_opsOk cfg (am_step cfg st op) rest = true := hops.2
    obtain ⟨hd1, hstep⟩ := am_step_facts cfg st op hop hd
    obtain ⟨hd2, hrun⟩ := ih (am_step cfg st op) hd1 hrest
    have hrunlist : am_run cfg st (op :: rest) =
        am_run cfg (am_step cfg st op) rest := by
      simp [am_run]
    rw [hrunlist]
    refine ⟨hd2, fun k hk => ?_⟩
    obtain ⟨hc1, _⟩ := hstep k hk
    exact hrun k hc1

/-- The side-condition check decomposes over trace concatenation. -/
theorem am_opsOk_append (cfg : AMConfig) (pre : List AMOp) :
    ∀ (st : AMState) (suf : List AMOp),
    am_opsOk cfg st (pre ++ suf) =
      (am_opsOk cfg st pre && am_opsOk cfg (am_run cfg st pre) suf) := by
  induction pre with
  | nil => intro st suf; simp [am_opsOk, am_run]
  | cons op rest ih =>
    intro st suf
    show (am_opOk st op && am_opsOk cfg (am_step cfg st op) (rest ++ suf)) = _
    rw [ih (am_step cfg st op) suf]
    have : am_run cfg st (op :: rest) = am_run cfg (am_step cfg st op) rest := by
      simp [am_run]
    rw [this]
    show _ = ((am_opOk st op && am_opsOk cfg (am_step cfg st op) rest) && _)
    rw [Bool.and_assoc]

/-- Runs decompose over trace concatenation. -/
theorem am_run_append (cfg : AMConfig) (st : AMState) (pre suf : List AMOp) :
    am_run cfg st (pre ++ suf) = am_run cfg (am_run cfg st pre) suf := by
  simp [am_run, List.foldl_append]

/-- C2 counterexample: `add_report` never consults the cold set, so
re-registering a name that was already archived puts it in both mappings.
Starting from an empty index with file `"a"` on disk, the trace
add `"a"` → `archive_reports` → add `"a"` leaves `"a"` in the cold set and
back in the hot set simultaneously: the exactly-one-of-hot-or-cold claim and
the once-cold-never-hot claim both fail. -/
theorem hot_cold_exclusive_counterexample :
    dmem (am_run ⟨100, 1⟩ amSt1
        [.add "a" "u" amOracle, .archive amOracle]).index.zenodo_reports "a" =
      true ∧
    dmem (am_run ⟨100, 1⟩ amSt1
        [.add "a" "u" amOracle, .archive amOracle]).index.github_reports "a" =
      false ∧
    dmem (am_run ⟨100, 1⟩ amSt1
        [.add "a" "u" amOracle, .archive amOracle,
          .add "a" "u2" amOracle]).index.github_reports "a" = true ∧
    dmem (am_run ⟨100, 1⟩ amSt1
        [.add "a" "u" amOracle, .archive amOracle,
          .add "a" "u2" amOracle]).index.zenodo_reports "a" = true := by decide

/-- C2 amended: provided `add_report` is never invoked with a name already
recorded in the cold set, every name is in at most one of the hot and cold
mappings at every observable state along the trace, and once a name is cold
it stays cold and never reappears in the hot mapping. -/
theorem hot_cold_exclusive_invariant (cfg : AMConfig) (st : AMState)
    (pre suf : List AMOp) (hd : DisjointHC st)
    (hops : am_opsOk cfg st (pre ++ suf) = true) :
    DisjointHC (am_run cfg st (pre ++ suf)) ∧
    (∀ k, k ∈ coldKeys (am_run cfg st pre) →
      k ∈ coldKeys (am_run cfg st (pre ++ suf)) ∧
      k ∉ hotKeys (am_run cfg st (pre ++ suf))) := by
  rw [am_opsOk_append, Bool.and_eq_true] at hops
  obtain ⟨hpre, hsuf⟩ := hops
  obtain ⟨hdmid, _⟩ := am_run_facts cfg pre st hd hpre
  obtain ⟨hdall, hcold⟩ := am_run_facts cfg suf (am_run cfg st pre) hdmid hsuf
  rw [am_run_append]
  exact ⟨hdall, hcold⟩

/-- Witness for C2 (amended): a fresh-names trace through a migration. -/
theorem hot_cold_exclusive_invariant_witness :
    DisjointHC amSt4 ∧
    am_opsOk amCfg7 amSt4
      ([.add "r1" "u1" amOracle, .add "r2" "u2" amOracle] ++
        [.add "r3" "u3" amOracle, .locate "r1"]) = true ∧
    DisjointHC (am_run amCfg7 amSt4
      ([.add "r1" "u1" amOracle, .add "r2" "u2" amOracle] ++
        [.add "r3" "u3" amOracle, .locate "r1"])) :=
  ⟨by decide, by decide,
    (hot_cold_exclusive_invariant amCfg7 amSt4
      [.add "r1" "u1" amOracle, .add "r2" "u2" amOracle]
      [.add "r3" "u3" amOracle, .locate "r1"] (by decide) (by decide)).1⟩

/-! ### Chunking lemmas for `store_meta_input` -/

/-- A buffer below capacity is not flushed. -/
theorem flush_loop_short (buf : List Row) (ctr : Nat) (h : buf.length < 1000) :
    flush_loop buf ctr = ([], buf, ctr) := by
  rw [flush_loop]
  simp [Nat.not_le.mpr h]

/-- A buffer at or above capacity flushes its first 1000 records as one file
and continues. -/
theorem flush_loop_long (buf : List Row) (ctr : Nat) (h : 1000 ≤ buf.length) :
    flush_loop buf ctr =
      ((ctr, buf.take 1000) :: (flush_loop (buf.drop 1000) (ctr + 1)).1,
        (flush_loop (buf.drop 1000) (ctr + 1)).2) := by
  conv_lhs => rw [flush_loop]
  simp [h]

/-- The flush loop always leaves fewer than 1000 records in the buffer. -/
theorem flush_buf_lt (buf : List Row) (ctr : Nat) :
    (flush_loop buf ctr).2.1.length < 1000 := by
  by_cases h : 1000 ≤ buf.length
  · rw [flush_loop_long buf ctr h]
    exact flush_buf_lt (buf.drop 1000) (ctr + 1)
  · rw [flush_loop_short buf ctr (Nat.lt_of_not_le h)]
    exact Nat.lt_of_not_le h
termination_by buf.length
decreasing_by simp only [List.length_drop]; omega

/-- Flushing a concatenation equals flushing the first part and then
flushing its leftover extended by the second part: the 1000-record slices
are always cut from the front, so file boundaries do not depend on how the
stream was split. -/
theorem flush_append (a b : List Row) (ctr : Nat) :
    flush_loop (a ++ b) ctr =
      ((flush_loop a ctr).1 ++
          (flush_loop ((flush_loop a ctr).2.1 ++ b) (flush_loop a ctr).2.2).1,
        (flush_loop ((flush_loop a ctr).2.1 ++ b) (flush_loop a ctr).2.2).2) := by
  by_cases h : 1000 ≤ a.length
  · have hab : 1000 ≤ (a ++ b).length := by
      simp only [List.length_append]
      omega
    rw [flush_loop_long a ctr h, flush_loop_long (a ++ b) ctr hab,
      List.take_append_of_le_length h, List.drop_append_of_le_length h,
      flush_append (a.drop 1000) b (ctr + 1)]
    simp
  · rw [flush_loop_short a ctr (Nat.lt_of_not_le h)]
    simp
termination_by a.length
decreasing_by simp only [List.length_drop]; omega

/-- Folding `push_records` over a list of record sections from a
below-capacity buffer equals one flush of the whole concatenation. -/
theorem push_records_fold (recss : List (List Row)) : ∀ (st : ChunkSt),
    st.buf.length < 1000 →
    recss.foldl push_records st =
      ⟨(flush_loop (st.buf ++ recss.flatten) st.ctr).2.1,
       (flush_loop (st.buf ++ recss.flatten) st.ctr).2.2,
       st.files ++ (flush_loop (st.buf ++ recss.flatten) st.ctr).1⟩ := by
  induction recss with
  | nil =>
    intro st h
    simp [flush_loop_short st.buf st.ctr h]
  | cons recs rest ih =>
    intro st h
    rw [List.foldl_cons,
      ih (push_records st recs) (flush_buf_lt (st.buf ++ recs) st.ctr)]
    have hassoc : st.buf ++ (recs :: rest).flatten =
        (st.buf ++ recs) ++ rest.flatten := by
      rw [List.flatten_cons, List.append_assoc]
    rw [hassoc, flush_append (st.buf ++ recs) rest.flatten st.ctr]
    simp [push_records, List.append_assoc]

/-- When every issue classifies as `ok`, the issue fold is the pair of
independent `push_records` folds over the two kinds' record sections. -/
theorem store_fold_ok (issues : List MIssue) : ∀ (ms cs : ChunkSt),
    (∀ i ∈ issues, (classify_issue i).isOkC = true) →
    issues.foldl store_step ⟨ms, cs, false⟩ =
      ⟨(issues.map (fun i => okMeta (classify_issue i))).foldl push_records ms,
       (issues.map (fun i => okCits (classify_issue i))).foldl push_records cs,
       false⟩ := by
  induction issues with
  | nil =>
    intro ms cs _
    rfl
  | cons i rest ih =>
    intro ms cs hok
    have hi := hok i (List.mem_cons_self i rest)
    rw [List.map_cons, List.map_cons, List.foldl_cons, List.foldl_cons,
      List.foldl_cons]
    cases hcl : classify_issue i with
    | ok m c =>
      have hstep : store_step ⟨ms, cs, false⟩ i =
          ⟨push_records ms m, push_records cs c, false⟩ := by
        unfold store_step
        rw [hcl]
        simp
      rw [hstep]
      simp only [okMeta, okCits]
      exact ih _ _ (fun j hj => hok j (List.mem_cons_of_mem i hj))
    | skip =>
      rw [hcl] at hi
      simp [Classified.isOkC] at hi
    | fatal =>
      rw [hcl] at hi
      simp [Classified.isOkC] at hi

/-- The three batch-size scenarios for one record kind, given the flushed
state of the whole concatenated stream. -/
theorem chunk_scenarios (M : List Row) :
    (M.length = 1200 →
      (final_flush ⟨(flush_loop M 0).2.1, (flush_loop M 0).2.2,
          (flush_loop M 0).1⟩).files =
        [(0, M.take 1000), (1, M.drop 1000)]) ∧
    (M.length = 1000 →
      (final_flush ⟨(flush_loop M 0).2.1, (flush_loop M 0).2.2,
          (flush_loop M 0).1⟩).files = [(0, M)]) ∧
    (M.length = 0 →
      (final_flush ⟨(flush_loop M 0).2.1, (flush_loop M 0).2.2,
          (flush_loop M 0).1⟩).files = []) := by
  refine ⟨fun hlen => ?_, fun hlen => ?_, fun hlen => ?_⟩
  · have h1 : 1000 ≤ M.length := by omega
    have h2 : (M.drop 1000).length < 1000 := by
      simp only [List.length_drop]
      omega
    rw [flush_loop_long M 0 h1, flush_loop_short _ _ h2]
    have hne : (M.drop 1000).isEmpty = false := by
      have hl : (M.drop 1000).length = 200 := by
        simp only [List.length_drop]
        omega
      rcases hd : M.drop 1000 with _ | ⟨x, xs⟩
      · rw [hd] at hl
        simp at hl
      · rfl
    simp [final_flush, hne]
  · have h1 : 1000 ≤ M.length := by omega
    have hdropnil : M.drop 1000 = [] := by
      rw [← hlen]
      exact List.drop_length M
    have htake : M.take 1000 = M := by
      rw [← hlen]
      exact List.take_length M
    rw [flush_loop_long M 0 h1, hdropnil,
      flush_loop_short [] 1 (by simp), htake]
    simp [final_flush]
  · have hnil : M = [] := List.length_eq_zero.mp hlen
    rw [hnil, flush_loop_short [] 0 (by simp)]
    simp [final_flush]

/-- C3: for every list of well-formed issues, `store_meta_input` re-chunks
the concatenated record stream of each kind in arrival order: 1200 records
yield exactly the files `0` (the first 1000 records) and `1` (the remaining
200), 1000 records yield the single file `0`, and 0 records yield no file;
no record is duplicated or dropped and no error escapes. -/
theorem store_meta_input_chunking (issues : List MIssue) (M C : List Row)
    (hok : ∀ i ∈ issues, (classify_issue i).isOkC = true)
    (hM : (metaSections issues).flatten = M)
    (hC : (citSections issues).flatten = C) :
    (store_meta_input issues).raised = false ∧
    (M.length = 1200 →
      (store_meta_input issues).metaFiles =
        [(0, M.take 1000), (1, M.drop 1000)] ∧
      (M.take 1000).length = 1000 ∧ (M.drop 1000).length = 200 ∧
      M.take 1000 ++ M.drop 1000 = M) ∧
    (M.length = 1000 → (store_meta_input issues).metaFiles = [(0, M)]) ∧
    (M.length = 0 → (store_meta_input issues).metaFiles = []) ∧
    (C.length = 1200 →
      (store_meta_input issues).citFiles =
        [(0, C.take 1000), (1, C.drop 1000)]) ∧
    (C.length = 1000 → (store_meta_input issues).citFiles = [(0, C)]) ∧
    (C.length = 0 → (store_meta_input issues).citFiles = []) := by
  have hfold := store_fold_ok issues ⟨[], 0, []⟩ ⟨[], 0, []⟩ hok
  have hmeta := push_records_fold (metaSections issues) ⟨[], 0, []⟩ (by simp)
  have hcits := push_records_fold (citSections issues) ⟨[], 0, []⟩ (by simp)
  rw [hM] at hmeta
  rw [hC] at hcits
  have hresult : store_meta_input issues =
      ⟨(final_flush ⟨(flush_loop M 0).2.1, (flush_loop M 0).2.2,
          (flush_loop M 0).1⟩).files,
        (final_flush ⟨(flush_loop C 0).2.1, (flush_loop C 0).2.2,
          (flush_loop C 0).1⟩).files,
        false⟩ := by
    unfold store_meta_input
    rw [hfold]
    simp only [Bool.false_eq_true, if_false]
    unfold metaSections at hmeta
    unfold citSections at hcits
    rw [hmeta, hcits]
    simp
  rw [hresult]
  obtain ⟨hm12, hm10, hm0⟩ := chunk_scenarios M
  obtain ⟨hc12, hc10, hc0⟩ := chunk_scenarios C
  refine ⟨rfl, fun h => ⟨hm12 h, ?_, ?_, List.take_append_drop 1000 M⟩,
    hm10, hm0, hc12, hc10, hc0⟩
  · rw [List.length_take]
    omega
  · rw [List.length_drop]
    omega

/-- A section list of `n` one-record sections flattens to `n` records. -/
theorem flatten_replicate_singleton {α : Type} (n : Nat) (a : List α) :
    (List.replicate n [a]).flatten = List.replicate n a := by
  induction n with
  | zero => simp
  | succ k ih => simp [List.replicate_succ, ih]

/-- Witness for C3: 1200 copies of a well-formed one-record issue produce
exactly the two metadata files of 1000 and 200 records. -/
theorem store_meta_input_chunking_witness :
    (∀ i ∈ List.replicate 1200 wIssue, (classify_issue i).isOkC = true) ∧
    (metaSections (List.replicate 1200 wIssue)).flatten =
      List.replicate 1200 wRow ∧
    (store_meta_input (List.replicate 1200 wIssue)).metaFiles =
      [(0, (List.replicate 1200 wRow).take 1000),
        (1, (List.replicate 1200 wRow).drop 1000)] := by
  have h1 : ∀ i ∈ List.replicate 1200 wIssue, (classify_issue i).isOkC = true := by
    intro i hi
    rw [List.eq_of_mem_replicate hi]
    decide
  have h2 : (metaSections (List.replicate 1200 wIssue)).flatten =
      List.replicate 1200 wRow := by
    unfold metaSections
    rw [List.map_replicate]
    have hcl : okMeta (classify_issue wIssue) = [wRow] := by decide
    rw [hcl, flatten_replicate_singleton]
  refine ⟨h1, h2, ?_⟩
  have h3 := (store_meta_input_chunking (List.replicate 1200 wIssue)
      (List.replicate 1200 wRow) ((citSections (List.replicate 1200 wIssue)).flatten)
      h1 h2 rfl).2.1 (by rw [List.length_replicate])
  exact h3.1

/-- C9: an issue whose record stream is malformed in any way the source
skips (missing separator, empty section, no parsable records, missing
dictionary fields) contributes nothing: the whole run equals the run with
that issue removed, so none of its records are written, processing
continues with the following issues, and batches flushed for other issues
are unchanged. -/
theorem store_meta_input_skips_malformed (pre post : List MIssue)
    (bad : MIssue) (hbad : classify_issue bad = .skip) :
    store_meta_input (pre ++ bad :: post) = store_meta_input (pre ++ post) := by
  unfold store_meta_input
  rw [List.foldl_append, List.foldl_append, List.foldl_cons]
  have hskip : ∀ st : RunSt, store_step st bad = st := by
    intro st
    unfold store_step
    rw [hbad]
    split <;> rfl
  rw [hskip]

/-- Witness for C9: a separator-less issue between two well-formed issues
leaves the result exactly as if it had not been submitted. -/
theorem store_meta_input_skips_malformed_witness :
    classify_issue badIssue = .skip ∧
    store_meta_input ([wIssue] ++ badIssue :: [wIssue]) =
      store_meta_input ([wIssue] ++ [wIssue]) :=
  ⟨by decide,
    store_meta_input_skips_malformed [wIssue] [wIssue] badIssue (by decide)⟩
